import Mathlib

/-!
Shallow embedding of the to-do-list backend core: the User, Task and Category
models of src/backend/models, the mock route handlers of
src/backend/server-mock.js, and the ownership-scoped route behaviour the spec
describes for the database-backed server.

JavaScript numbers and timestamps (milliseconds since the epoch) are modelled
as Int, Mongo ObjectIds and other identifiers as String.
-/

namespace Todo

/-- Task document, from the taskSchema of src/backend/models/Task.js.
Extension fields carrying no cross-entity invariants (tags, attachments,
recurrence, time estimates, notes) are omitted, as the spec allows.
completedAt is the document property written by the completion methods. -/
structure Task where
  id : String
  title : String
  description : String
  completed : Bool
  completedAt : Option Int
  priority : String
  categoryId : Option String
  dueDate : Option Int
  userId : String
  createdAt : Int
  updatedAt : Int
deriving Repr, DecidableEq

/-- Derived task status, from the status virtual of src/backend/models/Task.js:
completed when the flag is set; else overdue when now is strictly past the due
date; else due-soon when the due date is less than 24 hours (86400000 ms) away;
else pending. -/
def Task.status (t : Task) (now : Int) : String :=
  if t.completed then ("completed")
  else if (match t.dueDate with | some d => decide (d < now) | none => false) then ("overdue")
  else if (match t.dueDate with | some d => decide (d - now < 86400000) | none => false) then ("due-soon")
  else ("pending")

/-- Toggle completion, from the toggleComplete method of
src/backend/models/Task.js: flips completed; sets completedAt to the current
time when the task becomes complete and clears it when it becomes incomplete. -/
def Task.toggleComplete (t : Task) (now : Int) : Task :=
  let c := !t.completed
  { t with completed := c, completedAt := if c then some now else none }

/-- Claim C5: a task's derived status is completed when completed is true;
otherwise overdue iff the due date is before now; otherwise due-soon iff the
task has a due date less than 24 hours away; otherwise pending. -/
theorem status_characterization (t : Task) (now : Int) :
    (t.status now = "completed" ↔ t.completed = true)
    ∧ (t.status now = "overdue" ↔
        t.completed = false ∧ ∃ d, t.dueDate = some d ∧ d < now)
    ∧ (t.status now = "due-soon" ↔
        t.completed = false ∧ ∃ d, t.dueDate = some d ∧ ¬ d < now ∧ d - now < 86400000)
    ∧ (t.status now = "pending" ↔
        t.completed = false ∧ ∀ d, t.dueDate = some d → ¬ d < now ∧ ¬ d - now < 86400000) := by
  rcases t with ⟨i, ti, de, c, ca, p, ci, dd, u, cr, up⟩
  cases c <;> rcases dd with _ | d
  · simp [Task.status]
  · by_cases h1 : d < now <;> by_cases h2 : d - now < 86400000 <;>
      simp [Task.status, h1, h2] <;> omega
  · simp [Task.status]
  · by_cases h1 : d < now <;> by_cases h2 : d - now < 86400000 <;>
      simp [Task.status, h1, h2]

/-- Claim C4 counterexample: for a task that is already complete, applying
toggleComplete twice does not restore the original state: the second
application stamps its own time into completedAt (7 below) instead of the
original value (5). -/
theorem toggleComplete_twice_cex :
    Task.toggleComplete
      (Task.toggleComplete
        ⟨"t1", "demo", "", true, some 5, "medium", none, none, "u1", 0, 0⟩ 6) 7
      ≠ ⟨"t1", "demo", "", true, some 5, "medium", none, none, "u1", 0, 0⟩ := by
  decide

/-- Claim C4 amended: a single application of toggleComplete flips completed,
sets completedAt to the current time when the task becomes complete and clears
it when it becomes incomplete; applying it twice restores completed always and
restores completedAt only for a task that was incomplete (completedAt cleared);
for a task that was complete, completedAt becomes the time of the second
application. -/
theorem toggleComplete_twice_amended (t : Task) (n1 n2 : Int) :
    Task.toggleComplete (Task.toggleComplete t n1) n2
      = { t with completedAt := if t.completed then some n2 else none }
    ∧ (Task.toggleComplete t n1).completed = !t.completed
    ∧ (Task.toggleComplete t n1).completedAt
        = (if t.completed then none else some n1) := by
  rcases t with ⟨i, ti, de, c, ca, p, ci, dd, u, cr, up⟩
  cases c <;> simp [Task.toggleComplete]

/-- Task row shape of the in-memory mock store in src/backend/server-mock.js. -/
structure MockTask where
  id : String
  title : String
  description : String
  completed : Bool
  categoryId : Option String
  dueDate : Option Int
  priority : String
  createdAt : Int
  updatedAt : Int
  userId : String
deriving Repr, DecidableEq

/-- Request body of the PUT tasks route, one optional entry per task field:
a present field overwrites the stored one, an absent field leaves it alone,
mirroring the JavaScript object spread of the body over the stored row. -/
structure TaskUpdates where
  id : Option String
  title : Option String
  description : Option String
  completed : Option Bool
  categoryId : Option (Option String)
  dueDate : Option (Option Int)
  priority : Option String
  createdAt : Option Int
  updatedAt : Option Int
  userId : Option String
deriving Repr, DecidableEq

/-- Shallow merge performed by the PUT tasks handler of
src/backend/server-mock.js: spreads the stored task, then the request body,
then stamps updatedAt with the current time, so a body-supplied updatedAt is
always overridden. -/
def mergeTask (t : MockTask) (u : TaskUpdates) (now : Int) : MockTask :=
  { id := u.id.getD t.id,
    title := u.title.getD t.title,
    description := u.description.getD t.description,
    completed := u.completed.getD t.completed,
    categoryId := u.categoryId.getD t.categoryId,
    dueDate := u.dueDate.getD t.dueDate,
    priority := u.priority.getD t.priority,
    createdAt := u.createdAt.getD t.createdAt,
    updatedAt := now,
    userId := u.userId.getD t.userId }

inductive MockErr
  | notFound
deriving Repr, DecidableEq

/-- PUT tasks handler of src/backend/server-mock.js: findIndex on the id alone
(no ownership check, no validation), 404 when no row matches, otherwise the
matched row is replaced by the shallow merge and every other row is kept. -/
def putTask (tasks : List MockTask) (tid : String) (u : TaskUpdates) (now : Int) :
    Except MockErr (List MockTask) :=
  match tasks with
  | [] => Except.error MockErr.notFound
  | t :: rest =>
    if t.id == tid then Except.ok (mergeTask t u now :: rest)
    else
      match putTask rest tid u now with
      | Except.error e => Except.error e
      | Except.ok rest2 => Except.ok (t :: rest2)

lemma putTask_append (pre suf : List MockTask) (t : MockTask) (u : TaskUpdates)
    (now : Int) (hpre : ∀ p ∈ pre, ¬ p.id = t.id) :
    putTask (pre ++ t :: suf) t.id u now
      = Except.ok (pre ++ mergeTask t u now :: suf) := by
  induction pre with
  | nil => simp [putTask]
  | cons p ps ih =>
    have hp : ¬ p.id = t.id := hpre p (by simp)
    have ih2 := ih (fun q hq => hpre q (by simp [hq]))
    simp [putTask, hp, ih2]

/-- Claim C10: for an existing task id, the mock PUT handler performs an
unchecked shallow merge: every stored field absent from the body, other than
updatedAt, is left unchanged; every field present in the body, including id,
userId, completed and createdAt, takes the body value with no validation and
no ownership check (the theorem quantifies over the row's userId and takes no
acting user at all); updatedAt is stamped with the current time; all other
rows are untouched. -/
theorem putTask_unchecked_merge (pre suf : List MockTask) (t : MockTask)
    (u : TaskUpdates) (now : Int) (hpre : ∀ p ∈ pre, ¬ p.id = t.id) :
    putTask (pre ++ t :: suf) t.id u now
        = Except.ok (pre ++ mergeTask t u now :: suf)
    ∧ (u.id = none → (mergeTask t u now).id = t.id)
    ∧ (u.title = none → (mergeTask t u now).title = t.title)
    ∧ (u.description = none → (mergeTask t u now).description = t.description)
    ∧ (u.completed = none → (mergeTask t u now).completed = t.completed)
    ∧ (u.categoryId = none → (mergeTask t u now).categoryId = t.categoryId)
    ∧ (u.dueDate = none → (mergeTask t u now).dueDate = t.dueDate)
    ∧ (u.priority = none → (mergeTask t u now).priority = t.priority)
    ∧ (u.createdAt = none → (mergeTask t u now).createdAt = t.createdAt)
    ∧ (u.userId = none → (mergeTask t u now).userId = t.userId)
    ∧ (∀ v, u.id = some v → (mergeTask t u now).id = v)
    ∧ (∀ v, u.userId = some v → (mergeTask t u now).userId = v)
    ∧ (∀ v, u.completed = some v → (mergeTask t u now).completed = v)
    ∧ (∀ v, u.createdAt = some v → (mergeTask t u now).createdAt = v)
    ∧ (mergeTask t u now).updatedAt = now := by
  refine ⟨putTask_append pre suf t u now hpre,
    ?_, ?_, ?_, ?_, ?_, ?_, ?_, ?_, ?_, ?_, ?_, ?_, ?_, ?_⟩ <;>
    first
      | (intro h; simp [mergeTask, h])
      | (intro v h; simp [mergeTask, h])
      | simp [mergeTask]

/-- Claim C10 witness at a concrete store and body. -/
theorem putTask_unchecked_merge_witness :
    putTask [⟨"4", "Welcome", "", false, some "1", some 100, "medium", 0, 0, "1"⟩]
        "4"
        ⟨none, some "changed", none, some true, none, none, none, none, none, some "2"⟩
        9
      = Except.ok [⟨"4", "changed", "", true, some "1", some 100, "medium", 0, 9, "2"⟩] := by
  have h := putTask_unchecked_merge []
    [] ⟨"4", "Welcome", "", false, some "1", some 100, "medium", 0, 0, "1"⟩
    ⟨none, some "changed", none, some true, none, none, none, none, none, some "2"⟩
    9 (by simp)
  simpa [mergeTask] using h.1

/-- Category document, from the categorySchema of
src/backend/models/Category.js. -/
structure Category where
  id : String
  name : String
  color : String
  icon : String
  description : String
  userId : String
  isDefault : Bool
  isActive : Bool
  taskCount : Int
  sortOrder : Int
deriving Repr, DecidableEq

/-- The six fixed default rows (name, color, icon, sortOrder) of the
createDefaults static in src/backend/models/Category.js. -/
def defaultCategoryRows : List (String × String × String × Int) :=
  [("Work", "#3b82f6", "briefcase", 1),
   ("Personal", "#10b981", "heart", 2),
   ("Shopping", "#f59e0b", "cart", 3),
   ("Health", "#ef4444", "medical-bag", 4),
   ("Learning", "#8b5cf6", "book-open", 5),
   ("Travel", "#06b6d4", "airplane", 6)]

/-- Default category set built by the createDefaults static of
src/backend/models/Category.js: the six fixed rows for the given user, each
with isDefault true and a generated description. Mongo assigns fresh ObjectIds
at insert time; they are modelled as user-qualified strings. -/
def createDefaults (uid : String) : List Category :=
  defaultCategoryRows.map (fun r =>
    { id := uid ++ ":" ++ r.1, name := r.1, color := r.2.1, icon := r.2.2.1,
      description := r.1 ++ " related tasks", userId := uid,
      isDefault := true, isActive := true, taskCount := 0, sortOrder := r.2.2.2 })

inductive MongoErr
  | duplicateKey
deriving Repr, DecidableEq

/-- Ordered insertMany under the unique userId-name index declared in
src/backend/models/Category.js: documents are inserted one at a time, and the
first document whose (userId, name) pair already exists aborts the batch with
a duplicate-key error, leaving the documents inserted so far in place. -/
def insertManyCategories (cats : List Category) :
    List Category → List Category × Option MongoErr
  | [] => (cats, none)
  | d :: rest =>
    if cats.any (fun c => c.userId == d.userId && c.name == d.name) then
      (cats, some MongoErr.duplicateKey)
    else insertManyCategories (cats ++ [d]) rest

/-- seedDefaults of the spec, realized by Category.createDefaults of
src/backend/models/Category.js: an insertMany of the six default rows for the
user into the category collection. -/
def seedDefaults (cats : List Category) (uid : String) :
    List Category × Option MongoErr :=
  insertManyCategories cats (createDefaults uid)

/-- Modelled from the spec: the register route handler. The auth route file
is genuinely absent from src/ (src/SETUP.md bundles only the task and
category route files); per the spec, registration seeds the default category
set for the newly created user via Category.createDefaults, and only that
category side effect of registration is modelled here. -/
def registerSeeds (cats : List Category) (uid : String) : List Category :=
  (seedDefaults cats uid).1

lemma insertMany_mono (docs : List Category) :
    ∀ cats res e, insertManyCategories cats docs = (res, e) →
      ∀ {c : Category}, c ∈ cats → c ∈ res := by
  induction docs with
  | nil =>
    intro cats res e h c hc
    simp only [insertManyCategories] at h
    cases h
    exact hc
  | cons d rest ih =>
    intro cats res e h c hc
    simp only [insertManyCategories] at h
    by_cases hdup : cats.any (fun c => c.userId == d.userId && c.name == d.name)
    · rw [if_pos hdup] at h
      cases h
      exact hc
    · rw [if_neg hdup] at h
      exact ih (cats ++ [d]) res e h (by simp [hc])

/-- Claim C8: for a user with no pre-existing categories, registration seeds
exactly the six default categories named Work, Personal, Shopping, Health,
Learning and Travel, each isDefault, with the fixed colors and icons and
sortOrder one through six, all owned by the new user. -/
theorem register_seeds_defaults (cats : List Category) (uid : String)
    (hfresh : ∀ c ∈ cats, c.userId ≠ uid) :
    registerSeeds cats uid = cats ++ createDefaults uid
    ∧ (createDefaults uid).length = 6
    ∧ (createDefaults uid).map Category.name
        = ["Work", "Personal", "Shopping", "Health", "Learning", "Travel"]
    ∧ (createDefaults uid).map Category.isDefault
        = [true, true, true, true, true, true]
    ∧ (createDefaults uid).map Category.color
        = ["#3b82f6", "#10b981", "#f59e0b", "#ef4444", "#8b5cf6", "#06b6d4"]
    ∧ (createDefaults uid).map Category.icon
        = ["briefcase", "heart", "cart", "medical-bag", "book-open", "airplane"]
    ∧ (createDefaults uid).map Category.sortOrder = [1, 2, 3, 4, 5, 6]
    ∧ (createDefaults uid).map Category.userId = List.replicate 6 uid := by
  have hany : ∀ nm : String,
      cats.any (fun c => c.userId == uid && c.name == nm) = false := by
    intro nm
    rw [List.any_eq_false]
    intro c hc
    simp [hfresh c hc]
  refine ⟨?_, rfl, rfl, rfl, rfl, rfl, rfl, rfl⟩
  simp [registerSeeds, seedDefaults, createDefaults, defaultCategoryRows,
    insertManyCategories, List.any_append, hany]

/-- Claim C8 witness: seeding a fresh user into an empty store. -/
theorem register_seeds_defaults_witness :
    registerSeeds [] "u9" = [] ++ createDefaults "u9"
    ∧ (createDefaults "u9").length = 6 := by
  have h := register_seeds_defaults [] "u9" (by simp)
  exact ⟨h.1, h.2.1⟩

/-- Claim C9 counterexample: invoking seedDefaults a second time after it has
already succeeded for the same user does fail: the batch aborts on the first
row with a duplicate-key error from the unique userId-name index. -/
theorem seedDefaults_not_idempotent_cex :
    (seedDefaults (seedDefaults [] "u1").1 "u1").2 = some MongoErr.duplicateKey := by
  decide

/-- Claim C9 amended: invoking seedDefaults a second time after it has already
succeeded leaves the category set unchanged, but fails with a duplicate-key
error instead of succeeding: the ordered insertMany aborts on the first
default row, which already exists for the user. -/
theorem seedDefaults_second_call (cats cats1 : List Category) (uid : String)
    (h : seedDefaults cats uid = (cats1, none)) :
    seedDefaults cats1 uid = (cats1, some MongoErr.duplicateKey) := by
  simp only [seedDefaults, createDefaults, defaultCategoryRows, List.map] at h ⊢
  rw [insertManyCategories] at h ⊢
  by_cases hdup : cats.any (fun c =>
      c.userId == uid && c.name == "Work")
  · rw [if_pos (by simpa using hdup)] at h
    simp at h
  · rw [if_neg (by simpa using hdup)] at h
    have hW : (⟨uid ++ ":" ++ "Work", "Work", "#3b82f6", "briefcase",
        "Work" ++ " related tasks", uid, true, true, 0, 1⟩ : Category) ∈ cats1 :=
      insertMany_mono _ _ _ _ h (by simp)
    rw [if_pos]
    rw [List.any_eq_true]
    exact ⟨_, hW, by simp⟩

/-- Claim C9 witness for the amended statement: the concrete second call after
a successful first seeding of user u2 into an empty store. -/
theorem seedDefaults_second_call_witness :
    seedDefaults (createDefaults "u2") "u2"
      = (createDefaults "u2", some MongoErr.duplicateKey) := by
  have h0 : seedDefaults [] "u2" = (createDefaults "u2", none) := by decide
  simpa using seedDefaults_second_call [] (createDefaults "u2") "u2" h0

/-- ASCII lowercase code of a character, for the case-insensitive
comparisons below. -/
def lcVal (c : Char) : Nat :=
  if 65 ≤ c.toNat ∧ c.toNat ≤ 90 then c.toNat + 32 else c.toNat

/-- Plain case-insensitive string equality (equal lowercased codepoint
lists). This is the mathematical predicate the claims speak of; the program
itself compares names through the regex embedded below. -/
def nameEqCI (a b : String) : Bool :=
  a.data.map lcVal == b.data.map lcVal

/-- True for the JavaScript regex metacharacters, by codepoint: dot 46,
star 42, plus 43, question mark 63, caret 94, dollar 36, parentheses 40 41,
square brackets 91 93, curly braces 123 125, pipe 124, backslash 92. -/
def isRegexMeta (c : Char) : Bool :=
  c.toNat = 46 || c.toNat = 42 || c.toNat = 43 || c.toNat = 63 ||
  c.toNat = 94 || c.toNat = 36 || c.toNat = 40 || c.toNat = 41 ||
  c.toNat = 91 || c.toNat = 93 || c.toNat = 123 || c.toNat = 125 ||
  c.toNat = 124 || c.toNat = 92

/-- True when a string contains no regex metacharacter, so that injecting it
unescaped into a pattern treats it as literal text. -/
def plainName (s : String) : Bool :=
  s.data.all (fun c => !isRegexMeta c)

/-- One pattern character against one subject character under the regex
i flag: dot (codepoint 46) matches anything, any other character matches up
to ASCII case. -/
def charMatches (pc sc : Char) : Bool :=
  pc.toNat = 46 || lcVal pc == lcVal sc

/-- Full-string regex match of a pattern against a subject, modelling the
anchored caret-name-dollar pattern with the i flag that findByNameAndUser in
src/backend/models/Category.js builds from an UNESCAPED name. Covers the
fragment of the regex language the development exercises: literal
characters (case-insensitive), dot, and star (codepoint 42) as a quantifier
on the preceding character; remaining metacharacters are treated as
literals here and no theorem below depends on them. The first argument is
recursion fuel; every call made by regexMatchCI below carries enough of it
(the measure 2 pattern-length + subject-length strictly drops at each
recursive call). -/
def reMatch : Nat → List Char → List Char → Bool
  | 0, _, _ => false
  | _ + 1, [], s => s.isEmpty
  | fuel + 1, a :: ps, s =>
    match ps with
    | q :: ps2 =>
      if q.toNat = 42 then
        reMatch fuel ps2 s
          || (match s with
              | [] => false
              | sc :: ss => charMatches a sc && reMatch fuel (a :: ps) ss)
      else
        match s with
        | [] => false
        | sc :: ss => charMatches a sc && reMatch fuel ps ss
    | [] =>
      match s with
      | [] => false
      | sc :: ss => charMatches a sc && reMatch fuel ps ss

/-- The anchored case-insensitive regex built from the new name, applied to
a stored name, with sufficient fuel for the match to run to completion. -/
def regexMatchCI (pattern subject : String) : Bool :=
  reMatch (2 * pattern.length + subject.length + 1) pattern.data subject.data

/-- Name lookup scoped to one user, embedded from the findByNameAndUser
static of src/backend/models/Category.js: the new name is injected unescaped
into an anchored case-insensitive regex that is matched against the stored
names, with a userId filter. -/
def findByNameAndUser (cats : List Category) (nm uid : String) : Option Category :=
  cats.find? (fun c => regexMatchCI nm c.name && c.userId == uid)

inductive CatSaveErr
  | duplicateName
deriving Repr, DecidableEq

/-- Category creation through the pre-save middleware of
src/backend/models/Category.js: on a new document the name counts as modified,
and the save is rejected when a document of the same owner with the same
case-insensitive name and a different id already exists. -/
def createCategory (cats : List Category) (d : Category) :
    Except CatSaveErr (List Category) :=
  match findByNameAndUser cats d.name d.userId with
  | some e =>
    if e.id == d.id then Except.ok (cats ++ [d])
    else Except.error CatSaveErr.duplicateName
  | none => Except.ok (cats ++ [d])

lemma reMatch_plain : ∀ (p : List Char), ∀ (s : List Char) (fuel : Nat),
    p.length + s.length + 1 ≤ fuel →
    (∀ c ∈ p, isRegexMeta c = false) →
    (reMatch fuel p s = true ↔ p.map lcVal = s.map lcVal) := by
  intro p
  induction p with
  | nil =>
    intro s fuel hfuel hp
    cases fuel with
    | zero => omega
    | succ f => cases s <;> simp [reMatch]
  | cons a ps ih =>
    intro s fuel hfuel hp
    cases fuel with
    | zero => omega
    | succ f =>
    have ha : ¬ a.toNat = 46 := by
      have := hp a (List.mem_cons_self a ps)
      simp [isRegexMeta] at this
      omega
    cases ps with
    | nil =>
      cases s with
      | nil =>
        have hstep : reMatch (f + 1) [a] ([] : List Char) = false := rfl
        simp [hstep]
      | cons sc ss =>
        have ihs := ih ss f (by simp at hfuel ⊢; omega) (by simp)
        have hstep : reMatch (f + 1) [a] (sc :: ss)
            = (charMatches a sc && reMatch f [] ss) := rfl
        rw [hstep]
        simp [charMatches, ha, ihs]
    | cons b ps2 =>
      have hbstar : ¬ b.toNat = 42 := by
        have := hp b (by simp)
        simp [isRegexMeta] at this
        omega
      cases s with
      | nil =>
        have hstep : reMatch (f + 1) (a :: b :: ps2) ([] : List Char)
            = (if b.toNat = 42 then reMatch f ps2 [] || false else false) := rfl
        rw [hstep, if_neg hbstar]
        simp
      | cons sc ss =>
        have ihs := ih ss f (by simp at hfuel ⊢; omega)
          (fun c hc => hp c (List.mem_cons_of_mem a hc))
        have hstep : reMatch (f + 1) (a :: b :: ps2) (sc :: ss)
            = (if b.toNat = 42 then
                reMatch f ps2 (sc :: ss)
                  || (charMatches a sc && reMatch f (a :: b :: ps2) ss)
              else charMatches a sc && reMatch f (b :: ps2) ss) := rfl
        rw [hstep, if_neg hbstar]
        simp [charMatches, ha, ihs]

lemma regexMatchCI_plain (nm s : String) (h : plainName nm = true) :
    (regexMatchCI nm s = true ↔ nameEqCI nm s = true) := by
  have hall : ∀ c ∈ nm.data, isRegexMeta c = false := by
    simpa [plainName, List.all_eq_true] using h
  have hlen : nm.data.length + s.data.length + 1
      ≤ 2 * nm.length + s.length + 1 := by
    show nm.data.length + s.data.length + 1
      ≤ 2 * nm.data.length + s.data.length + 1
    omega
  simp [regexMatchCI, nameEqCI,
    reMatch_plain nm.data s.data (2 * nm.length + s.length + 1) hlen hall]

/-- Claim C7 amended: with a fresh document id and a new name containing no
regex metacharacters, creating a category fails with the duplicate-name
error iff the same owner already has a category with the same name up to
ASCII case, while a same-named category of another owner never blocks the
create. For metacharacter names the guarantee fails: the unescaped new name
is interpreted as an anchored case-insensitive regex over the stored names,
so a case-insensitive duplicate can slip through (see the counterexample
below). -/
theorem createCategory_duplicate_policy (cats : List Category) (d : Category)
    (hfresh : ∀ c ∈ cats, ¬ c.id = d.id) (hplain : plainName d.name = true) :
    (createCategory cats d = Except.error CatSaveErr.duplicateName
      ↔ ∃ c ∈ cats, c.userId = d.userId ∧ nameEqCI d.name c.name = true)
    ∧ ((∀ c ∈ cats, c.userId = d.userId → ¬ nameEqCI d.name c.name = true) →
        createCategory cats d = Except.ok (cats ++ [d])) := by
  unfold createCategory findByNameAndUser
  cases hfind : cats.find?
      (fun c => regexMatchCI d.name c.name && c.userId == d.userId) with
  | none =>
    rw [List.find?_eq_none] at hfind
    constructor
    · constructor
      · intro h
        simp at h
      · rintro ⟨c, hc, hu, hn⟩
        have hre : regexMatchCI d.name c.name = true :=
          (regexMatchCI_plain d.name c.name hplain).mpr hn
        exact absurd (by simp [hre, hu]) (hfind c hc)
    · intro _
      simp
  | some e =>
    have hmem : e ∈ cats := List.mem_of_find?_eq_some hfind
    have hpred := List.find?_some hfind
    simp only [Bool.and_eq_true, beq_iff_eq] at hpred
    have hid : ¬ e.id = d.id := hfresh e hmem
    have hci : nameEqCI d.name e.name = true :=
      (regexMatchCI_plain d.name e.name hplain).mp hpred.1
    constructor
    · constructor
      · intro _
        exact ⟨e, hmem, hpred.2, hci⟩
      · intro _
        simp [hid]
    · intro hnone
      exact absurd hci (hnone e hmem hpred.2)

/-- Claim C7 witness: user u1 already owns Work, so creating work (a plain
name) for u1 fails with the duplicate-name error. -/
theorem createCategory_duplicate_policy_witness :
    createCategory [⟨"c1", "Work", "#fff", "tag", "", "u1", false, true, 0, 0⟩]
        ⟨"c2", "work", "#000", "tag", "", "u1", false, true, 0, 0⟩
      = Except.error CatSaveErr.duplicateName := by
  have h := createCategory_duplicate_policy
    [⟨"c1", "Work", "#fff", "tag", "", "u1", false, true, 0, 0⟩]
    ⟨"c2", "work", "#000", "tag", "", "u1", false, true, 0, 0⟩
    (by decide) (by decide)
  exact h.1.mpr ⟨_, List.mem_singleton_self _, by decide, by decide⟩

/-- Claim C7 counterexample: user u1 already owns a category named A-star-B;
creating a-star-b for the same user succeeds although the two names are
equal up to case, because the duplicate check interprets the unescaped new
name as an anchored case-insensitive regex in which the star is a
quantifier, and that regex does not match the stored text (the unique index
is case-sensitive and does not block the insert either). -/
theorem createCategory_metachar_cex :
    nameEqCI "A*B" "a*b" = true
    ∧ createCategory
        [⟨"c1", "A*B", "#fff", "tag", "", "u1", false, true, 0, 0⟩]
        ⟨"c2", "a*b", "#000", "tag", "", "u1", false, true, 0, 0⟩
      = Except.ok
        [⟨"c1", "A*B", "#fff", "tag", "", "u1", false, true, 0, 0⟩,
          ⟨"c2", "a*b", "#000", "tag", "", "u1", false, true, 0, 0⟩] :=
  ⟨by decide, by rfl⟩

/-- Joint state of the category and task collections. -/
structure StoreState where
  cats : List Category
  tasks : List Task
deriving Repr, DecidableEq

/-- Pre-remove middleware of src/backend/models/Category.js: removing a
category first clears the category reference of every task pointing at it. -/
def preRemoveDetach (tasks : List Task) (cid : String) : List Task :=
  tasks.map (fun t =>
    if t.categoryId == some cid then { t with categoryId := none } else t)

inductive CatDeleteErr
  | notFound
  | defaultProtected
  | categoryInUse
deriving Repr, DecidableEq

/-- Number of tasks whose categoryId references the given category id, over
the whole task collection: this is Task.countDocuments on categoryId, the
live reference count. -/
def refCount (tasks : List Task) (cid : String) : Nat :=
  (tasks.filter (fun t => t.categoryId == some cid)).length

/-- Category delete route, embedded from DELETE of routes/categories.js
(bundled in src/SETUP.md): findOne scoped by id and owner (404 otherwise, so
a foreign category is indistinguishable from an absent one), refusal for
default categories, refusal with CategoryInUse while the LIVE count
Task.countDocuments on the category id — not the stored taskCount — is
positive, and otherwise removal of the document, which triggers the
pre-remove middleware embedded above from src/backend/models/Category.js. -/
def deleteCategoryRoute (st : StoreState) (uid cid : String) :
    StoreState × Option CatDeleteErr :=
  match st.cats.find? (fun c => c.id == cid && c.userId == uid) with
  | none => (st, some CatDeleteErr.notFound)
  | some c =>
    if c.isDefault then (st, some CatDeleteErr.defaultProtected)
    else if 0 < refCount st.tasks cid then (st, some CatDeleteErr.categoryInUse)
    else
      ({ cats := st.cats.eraseP (fun c2 => c2.id == cid && c2.userId == uid),
         tasks := preRemoveDetach st.tasks cid }, none)

/-- Claim C3 counterexample: the delete route gates on the live reference
count, not the stored taskCount. Here the non-default category c1 of user
u1 has taskCount zero — so the claim says its deletion succeeds — yet one
task still references it, and the code fails with CategoryInUse, leaving
the store unchanged. -/
theorem deleteCategory_staleCount_cex :
    deleteCategoryRoute
        ⟨[⟨"c1", "Work", "#fff", "tag", "", "u1", false, true, 0, 1⟩],
          [⟨"t1", "a", "", false, none, "medium", some "c1", none, "u1", 0, 0⟩]⟩
        "u1" "c1"
      = (⟨[⟨"c1", "Work", "#fff", "tag", "", "u1", false, true, 0, 1⟩],
          [⟨"t1", "a", "", false, none, "medium", some "c1", none, "u1", 0, 0⟩]⟩,
          some CatDeleteErr.categoryInUse) := by
  decide

/-- Claim C3 amended: deleting a non-default owned category fails with
CategoryInUse and leaves the whole store unchanged when the live number of
tasks referencing it is positive, and succeeds when no task references it:
the route gates on Task.countDocuments, which coincides with the stored
taskCount only while the counter invariant holds. -/
theorem deleteCategory_live_policy (st : StoreState) (uid cid : String)
    (c : Category)
    (hfind : st.cats.find? (fun c2 => c2.id == cid && c2.userId == uid) = some c)
    (hnd : c.isDefault = false) :
    (0 < refCount st.tasks cid →
        deleteCategoryRoute st uid cid = (st, some CatDeleteErr.categoryInUse))
    ∧ (refCount st.tasks cid = 0 → (deleteCategoryRoute st uid cid).2 = none) := by
  constructor
  · intro hpos
    simp [deleteCategoryRoute, hfind, hnd, hpos]
  · intro hzero
    simp [deleteCategoryRoute, hfind, hnd, hzero]

/-- Claim C3 witness for the amended statement: a non-default category of
user u1 with one live referencing task cannot be deleted. -/
theorem deleteCategory_live_policy_witness :
    deleteCategoryRoute
        ⟨[⟨"c2", "Home", "#abc", "tag", "", "u1", false, true, 1, 2⟩],
          [⟨"t2", "b", "", false, none, "low", some "c2", none, "u1", 0, 0⟩]⟩
        "u1" "c2"
      = (⟨[⟨"c2", "Home", "#abc", "tag", "", "u1", false, true, 1, 2⟩],
          [⟨"t2", "b", "", false, none, "low", some "c2", none, "u1", 0, 0⟩]⟩,
          some CatDeleteErr.categoryInUse) := by
  have h := deleteCategory_live_policy
    ⟨[⟨"c2", "Home", "#abc", "tag", "", "u1", false, true, 1, 2⟩],
      [⟨"t2", "b", "", false, none, "low", some "c2", none, "u1", 0, 0⟩]⟩
    "u1" "c2" ⟨"c2", "Home", "#abc", "tag", "", "u1", false, true, 1, 2⟩
    (by decide) (by decide)
  exact h.1 (by decide)

/-- Remove the first task matching both the row id and the owner, returning
the removed row and the remaining list; none when no owned row matches. This
is the findOne scoped by id and userId followed by remove of the DELETE
handler in routes/tasks.js (bundled in src/SETUP.md); document ids are
unique, so first-match removal is the per-document delete. -/
def removeFirstOwned (uid tid : String) : List Task → Option (Task × List Task)
  | [] => none
  | t :: rest =>
    if t.id == tid && t.userId == uid then some (t, rest)
    else
      match removeFirstOwned uid tid rest with
      | none => none
      | some q => some (q.1, t :: q.2)

inductive TaskRouteErr
  | notFound
  | invalidCategory
deriving Repr, DecidableEq

/-- Single-task read, embedded from GET of routes/tasks.js (bundled in
src/SETUP.md): findOne filtered by both the row id and the authenticated
userId; a miss — including a row owned by someone else — is a plain 404. -/
def getTaskRoute (tasks : List Task) (uid tid : String) :
    Except TaskRouteErr Task :=
  match tasks.find? (fun t => t.id == tid && t.userId == uid) with
  | none => Except.error TaskRouteErr.notFound
  | some t => Except.ok t

/-- Single-category read, embedded from GET of routes/categories.js (bundled
in src/SETUP.md), scoped by id and owner exactly like the task lookup. -/
def getCategoryRoute (cats : List Category) (uid cid : String) :
    Except TaskRouteErr Category :=
  match cats.find? (fun c => c.id == cid && c.userId == uid) with
  | none => Except.error TaskRouteErr.notFound
  | some c => Except.ok c

/-- Validated PUT body for a task, from routes/tasks.js: each field is
either absent or present with a value; the categoryId validator only admits
Mongo id strings, so the body can set a category but never clear one. -/
structure TaskPatch where
  title : Option String
  description : Option String
  priority : Option String
  dueDate : Option Int
  categoryId : Option String
deriving Repr, DecidableEq

/-- The updateData object of the PUT handler: every body field that is
present overwrites the stored one. -/
def applyPatch (t : Task) (p : TaskPatch) : Task :=
  { t with
    title := p.title.getD t.title,
    description := p.description.getD t.description,
    priority := p.priority.getD t.priority,
    dueDate := (match p.dueDate with
      | some d => some d
      | none => t.dueDate),
    categoryId := (match p.categoryId with
      | some c => some c
      | none => t.categoryId) }

/-- Patch the first task matching both the row id and the owner, returning
the pre-patch row and the updated list; none when no owned row matches.
This is the owner-scoped findOne followed by findByIdAndUpdate of the PUT
handler in routes/tasks.js: ids are unique, so the id-addressed update hits
exactly the document the scoped findOne returned. -/
def patchFirstOwned (uid tid : String) (p : TaskPatch) :
    List Task → Option (Task × List Task)
  | [] => none
  | t :: rest =>
    if t.id == tid && t.userId == uid then some (t, applyPatch t p :: rest)
    else
      match patchFirstOwned uid tid p rest with
      | none => none
      | some q => some (q.1, t :: q.2)

/-- True when the collection holds a category with this id owned by this
user: the Category.findOne by id and userId that the task routes run to
validate a supplied categoryId. -/
def categoryOwnedBy (cats : List Category) (uid cid : String) : Bool :=
  cats.any (fun c => c.id == cid && c.userId == uid)

/-- Category.findByIdAndUpdate with a raw $inc on taskCount, as the task
routes in routes/tasks.js issue it: addressed by category id alone and
UNCLAMPED — unlike the decrementTaskCount instance method of
src/backend/models/Category.js, nothing stops the stored counter from going
negative. -/
def incTaskCountBy (cats : List Category) (cid : String) (delta : Int) :
    List Category :=
  cats.map (fun c =>
    if c.id == cid then { c with taskCount := c.taskCount + delta } else c)

/-- Task create, embedded from POST of routes/tasks.js (bundled in
src/SETUP.md): a supplied categoryId must name a category owned by the
acting user (the route sets the new task's userId itself), otherwise 400
and no change; on success the task is stored and the referenced category
counter gets an unclamped $inc of +1. -/
def createTaskRoute (st : StoreState) (t : Task) : StoreState × Option TaskRouteErr :=
  match t.categoryId with
  | none => ({ st with tasks := t :: st.tasks }, none)
  | some cid =>
    if categoryOwnedBy st.cats t.userId cid then
      ({ cats := incTaskCountBy st.cats cid 1, tasks := t :: st.tasks }, none)
    else (st, some TaskRouteErr.invalidCategory)

/-- Task update, embedded from PUT of routes/tasks.js (bundled in
src/SETUP.md). The handler compares oldCategoryId (a Mongo ObjectId or
null) against the body categoryId (a string or undefined) with the strict
inequality operator; the operands never have the same type, so both guards
degenerate: the new-category validation and the +1 $inc run whenever the
body carries a categoryId, and the -1 $inc on the old category runs
whenever the stored task had one — even when the body omits categoryId and
the task keeps its reference. Both $inc updates are unclamped. -/
def updateTaskRoute (st : StoreState) (uid tid : String) (p : TaskPatch) :
    StoreState × Option TaskRouteErr :=
  match patchFirstOwned uid tid p st.tasks with
  | none => (st, some TaskRouteErr.notFound)
  | some q =>
    match p.categoryId with
    | some c =>
      if categoryOwnedBy st.cats uid c then
        ({ cats := incTaskCountBy
              (match q.1.categoryId with
                | some o => incTaskCountBy st.cats o (-1)
                | none => st.cats) c 1,
           tasks := q.2 }, none)
      else (st, some TaskRouteErr.invalidCategory)
    | none =>
      ({ cats := (match q.1.categoryId with
          | some o => incTaskCountBy st.cats o (-1)
          | none => st.cats),
         tasks := q.2 }, none)

/-- Task delete, embedded from DELETE of routes/tasks.js (bundled in
src/SETUP.md): owner-scoped findOne (404 otherwise), removal of that row,
then an unclamped $inc of -1 on the referenced category, if any. -/
def deleteTaskRoute (st : StoreState) (uid tid : String) :
    StoreState × Option TaskRouteErr :=
  match removeFirstOwned uid tid st.tasks with
  | none => (st, some TaskRouteErr.notFound)
  | some q =>
    ({ cats := (match q.1.categoryId with
        | some cid => incTaskCountBy st.cats cid (-1)
        | none => st.cats),
       tasks := q.2 }, none)

/-- Validated PUT body for a category, from routes/categories.js: name,
color, description and icon, each absent or present. -/
structure CatPatch where
  name : Option String
  color : Option String
  description : Option String
  icon : Option String
deriving Repr, DecidableEq

/-- The updateData object of the category PUT handler. -/
def applyCatPatch (c : Category) (q : CatPatch) : Category :=
  { c with
    name := q.name.getD c.name,
    color := q.color.getD c.color,
    description := q.description.getD c.description,
    icon := q.icon.getD c.icon }

/-- Patch the first category matching both the id and the owner; none when
no owned row matches. As with tasks, ids are unique, so the id-addressed
findByIdAndUpdate hits exactly the document the scoped findOne returned. -/
def patchFirstOwnedCat (uid cid : String) (q : CatPatch) :
    List Category → Option (Category × List Category)
  | [] => none
  | c :: rest =>
    if c.id == cid && c.userId == uid then some (c, applyCatPatch c q :: rest)
    else
      match patchFirstOwnedCat uid cid q rest with
      | none => none
      | some r => some (r.1, c :: r.2)

inductive CatUpdateErr
  | notFound
  | duplicateName
deriving Repr, DecidableEq

/-- Category update, embedded from PUT of routes/categories.js (bundled in
src/SETUP.md): owner-scoped findOne (404 otherwise); when the body renames
the category (name present and different from the stored one, compared
case-sensitively) and findByNameAndUser finds any category of this owner
matching the new name, the update is rejected as a duplicate; otherwise the
present fields overwrite the stored ones. -/
def updateCategoryRoute (cats : List Category) (uid cid : String)
    (q : CatPatch) : List Category × Option CatUpdateErr :=
  match patchFirstOwnedCat uid cid q cats with
  | none => (cats, some CatUpdateErr.notFound)
  | some r =>
    if (match q.name with
        | some nm =>
          if nm = r.1.name then false
          else (findByNameAndUser cats nm uid).isSome
        | none => false) then (cats, some CatUpdateErr.duplicateName)
    else (r.2, none)

lemma removeFirstOwned_eq_none (uid tid : String) (ts : List Task) :
    removeFirstOwned uid tid ts = none
      ↔ ∀ t ∈ ts, ¬ (t.id = tid ∧ t.userId = uid) := by
  induction ts with
  | nil => simp [removeFirstOwned]
  | cons t rest ih =>
    by_cases hc : (t.id == tid && t.userId == uid) = true
    · simp only [removeFirstOwned, if_pos hc]
      simp only [Bool.and_eq_true, beq_iff_eq] at hc
      simp [hc]
    · simp only [removeFirstOwned, if_neg hc]
      simp only [Bool.and_eq_true, beq_iff_eq] at hc
      cases hrec : removeFirstOwned uid tid rest with
      | none =>
        have hall := ih.mp hrec
        constructor
        · intro _ x hx
          rcases List.mem_cons.mp hx with hxe | hxm
          · subst hxe
            exact hc
          · exact hall x hxm
        · intro _
          rfl
      | some q =>
        have hne : ¬ removeFirstOwned uid tid rest = none := by
          rw [hrec]
          simp
        have hex : ∃ x ∈ rest, x.id = tid ∧ x.userId = uid := by
          by_contra hno
          push_neg at hno
          exact hne (ih.mpr (fun x hx hp => hno x hx hp.1 hp.2))
        constructor
        · intro habs
          exact absurd habs
            (by simp : ¬ (some (q.1, t :: q.2) : Option (Task × List Task)) = none)
        · intro hall
          obtain ⟨x, hx, hpx⟩ := hex
          exact absurd hpx (hall x (List.mem_cons_of_mem t hx))

lemma removeFirstOwned_some (uid tid : String) :
    ∀ ts old ts2, removeFirstOwned uid tid ts = some (old, ts2) →
      old.id = tid ∧ old.userId = uid ∧ old ∈ ts
        ∧ (∀ t ∈ ts, ¬ t.userId = uid → t ∈ ts2) := by
  intro ts
  induction ts with
  | nil => intro old ts2 h; simp [removeFirstOwned] at h
  | cons t rest ih =>
    intro old ts2 h
    by_cases hc : (t.id == tid && t.userId == uid) = true
    · rw [removeFirstOwned, if_pos hc] at h
      cases h
      simp only [Bool.and_eq_true, beq_iff_eq] at hc
      refine ⟨hc.1, hc.2, List.mem_cons_self t rest, ?_⟩
      intro x hx hxu
      rcases List.mem_cons.mp hx with hxe | hxm
      · exact absurd (hxe ▸ hc.2) hxu
      · exact hxm
    · rw [removeFirstOwned, if_neg hc] at h
      cases hrec : removeFirstOwned uid tid rest with
      | none => rw [hrec] at h; simp at h
      | some q =>
        rw [hrec] at h
        cases h
        obtain ⟨h1, h2, h3, h4⟩ := ih q.1 q.2 (by rw [hrec])
        refine ⟨h1, h2, List.mem_cons_of_mem t h3, ?_⟩
        intro x hx hxu
        rcases List.mem_cons.mp hx with hxe | hxm
        · exact hxe ▸ List.mem_cons_self t q.2
        · exact List.mem_cons_of_mem t (h4 x hxm hxu)

lemma patchFirstOwned_eq_none (uid tid : String) (p : TaskPatch)
    (ts : List Task) :
    patchFirstOwned uid tid p ts = none
      ↔ ∀ t ∈ ts, ¬ (t.id = tid ∧ t.userId = uid) := by
  induction ts with
  | nil => simp [patchFirstOwned]
  | cons t rest ih =>
    by_cases hc : (t.id == tid && t.userId == uid) = true
    · simp only [patchFirstOwned, if_pos hc]
      simp only [Bool.and_eq_true, beq_iff_eq] at hc
      simp [hc]
    · simp only [patchFirstOwned, if_neg hc]
      simp only [Bool.and_eq_true, beq_iff_eq] at hc
      cases hrec : patchFirstOwned uid tid p rest with
      | none =>
        have hall := ih.mp hrec
        constructor
        · intro _ x hx
          rcases List.mem_cons.mp hx with hxe | hxm
          · subst hxe
            exact hc
          · exact hall x hxm
        · intro _
          rfl
      | some q =>
        have hne : ¬ patchFirstOwned uid tid p rest = none := by
          rw [hrec]
          simp
        have hex : ∃ x ∈ rest, x.id = tid ∧ x.userId = uid := by
          by_contra hno
          push_neg at hno
          exact hne (ih.mpr (fun x hx hp2 => hno x hx hp2.1 hp2.2))
        constructor
        · intro habs
          exact absurd habs
            (by simp : ¬ (some (q.1, t :: q.2) : Option (Task × List Task)) = none)
        · intro hall
          obtain ⟨x, hx, hpx⟩ := hex
          exact absurd hpx (hall x (List.mem_cons_of_mem t hx))

lemma patchFirstOwned_some (uid tid : String) (p : TaskPatch) :
    ∀ ts old ts2, patchFirstOwned uid tid p ts = some (old, ts2) →
      old.id = tid ∧ old.userId = uid ∧ old ∈ ts
        ∧ (∀ t ∈ ts, ¬ t.userId = uid → t ∈ ts2) := by
  intro ts
  induction ts with
  | nil => intro old ts2 h; simp [patchFirstOwned] at h
  | cons t rest ih =>
    intro old ts2 h
    by_cases hc : (t.id == tid && t.userId == uid) = true
    · rw [patchFirstOwned, if_pos hc] at h
      cases h
      simp only [Bool.and_eq_true, beq_iff_eq] at hc
      refine ⟨hc.1, hc.2, List.mem_cons_self t rest, ?_⟩
      intro x hx hxu
      rcases List.mem_cons.mp hx with hxe | hxm
      · exact absurd (hxe ▸ hc.2) hxu
      · exact List.mem_cons_of_mem _ hxm
    · rw [patchFirstOwned, if_neg hc] at h
      cases hrec : patchFirstOwned uid tid p rest with
      | none => rw [hrec] at h; simp at h
      | some q =>
        rw [hrec] at h
        cases h
        obtain ⟨h1, h2, h3, h4⟩ := ih q.1 q.2 (by rw [hrec])
        refine ⟨h1, h2, List.mem_cons_of_mem t h3, ?_⟩
        intro x hx hxu
        rcases List.mem_cons.mp hx with hxe | hxm
        · exact hxe ▸ List.mem_cons_self t q.2
        · exact List.mem_cons_of_mem t (h4 x hxm hxu)

lemma patchFirstOwnedCat_eq_none (uid cid : String) (q : CatPatch)
    (cs : List Category) :
    patchFirstOwnedCat uid cid q cs = none
      ↔ ∀ c ∈ cs, ¬ (c.id = cid ∧ c.userId = uid) := by
  induction cs with
  | nil => simp [patchFirstOwnedCat]
  | cons c rest ih =>
    by_cases hc : (c.id == cid && c.userId == uid) = true
    · simp only [patchFirstOwnedCat, if_pos hc]
      simp only [Bool.and_eq_true, beq_iff_eq] at hc
      simp [hc]
    · simp only [patchFirstOwnedCat, if_neg hc]
      simp only [Bool.and_eq_true, beq_iff_eq] at hc
      cases hrec : patchFirstOwnedCat uid cid q rest with
      | none =>
        have hall := ih.mp hrec
        constructor
        · intro _ x hx
          rcases List.mem_cons.mp hx with hxe | hxm
          · subst hxe
            exact hc
          · exact hall x hxm
        · intro _
          rfl
      | some r =>
        have hne : ¬ patchFirstOwnedCat uid cid q rest = none := by
          rw [hrec]
          simp
        have hex : ∃ x ∈ rest, x.id = cid ∧ x.userId = uid := by
          by_contra hno
          push_neg at hno
          exact hne (ih.mpr (fun x hx hp2 => hno x hx hp2.1 hp2.2))
        constructor
        · intro habs
          exact absurd habs
            (by simp :
              ¬ (some (r.1, c :: r.2) : Option (Category × List Category)) = none)
        · intro hall
          obtain ⟨x, hx, hpx⟩ := hex
          exact absurd hpx (hall x (List.mem_cons_of_mem c hx))

lemma patchFirstOwnedCat_some (uid cid : String) (q : CatPatch) :
    ∀ cs old cs2, patchFirstOwnedCat uid cid q cs = some (old, cs2) →
      old.id = cid ∧ old.userId = uid ∧ old ∈ cs
        ∧ (∀ c ∈ cs, ¬ c.userId = uid → c ∈ cs2) := by
  intro cs
  induction cs with
  | nil => intro old cs2 h; simp [patchFirstOwnedCat] at h
  | cons c rest ih =>
    intro old cs2 h
    by_cases hc : (c.id == cid && c.userId == uid) = true
    · rw [patchFirstOwnedCat, if_pos hc] at h
      cases h
      simp only [Bool.and_eq_true, beq_iff_eq] at hc
      refine ⟨hc.1, hc.2, List.mem_cons_self c rest, ?_⟩
      intro x hx hxu
      rcases List.mem_cons.mp hx with hxe | hxm
      · exact absurd (hxe ▸ hc.2) hxu
      · exact List.mem_cons_of_mem _ hxm
    · rw [patchFirstOwnedCat, if_neg hc] at h
      cases hrec : patchFirstOwnedCat uid cid q rest with
      | none => rw [hrec] at h; simp at h
      | some r =>
        rw [hrec] at h
        cases h
        obtain ⟨h1, h2, h3, h4⟩ := ih r.1 r.2 (by rw [hrec])
        refine ⟨h1, h2, List.mem_cons_of_mem c h3, ?_⟩
        intro x hx hxu
        rcases List.mem_cons.mp hx with hxe | hxm
        · exact hxe ▸ List.mem_cons_self c r.2
        · exact List.mem_cons_of_mem c (h4 x hxm hxu)

lemma preRemoveDetach_no_refs (cid : String) :
    ∀ ts : List Task, refCount ts cid = 0 → preRemoveDetach ts cid = ts := by
  intro ts
  induction ts with
  | nil => intro _; rfl
  | cons t rest ih =>
    intro h
    by_cases hc : (t.categoryId == some cid) = true
    · exfalso
      simp [refCount, List.filter_cons, hc] at h
    · have hrest : refCount rest cid = 0 := by
        simpa [refCount, List.filter_cons, hc] using h
      have htail := ih hrest
      unfold preRemoveDetach at htail ⊢
      rw [List.map_cons, if_neg hc, htail]

/-- Claim C2: the task and category routes only touch rows owned by the
authenticated actor: a successful single-row read returns a row whose userId
is the actor; task update and delete, and category update and delete, keep
every row of other users; when the only rows carrying the requested id
belong to other users, each of these operations fails with NotFound and
leaves the store unchanged, and the read response coincides with the
response on a store from which those foreign rows are truly absent; and a
successful category delete leaves the task collection untouched. -/
theorem ownership_scoping (st : StoreState) (uid tid cid : String)
    (p : TaskPatch) (q : CatPatch) :
    (∀ t, getTaskRoute st.tasks uid tid = Except.ok t →
        t.userId = uid ∧ t ∈ st.tasks)
    ∧ (∀ c, getCategoryRoute st.cats uid cid = Except.ok c →
        c.userId = uid ∧ c ∈ st.cats)
    ∧ (∀ t ∈ st.tasks, ¬ t.userId = uid →
        t ∈ (updateTaskRoute st uid tid p).1.tasks)
    ∧ (∀ t ∈ st.tasks, ¬ t.userId = uid →
        t ∈ (deleteTaskRoute st uid tid).1.tasks)
    ∧ (∀ c ∈ st.cats, ¬ c.userId = uid →
        c ∈ (updateCategoryRoute st.cats uid cid q).1)
    ∧ (∀ c ∈ st.cats, ¬ c.userId = uid →
        c ∈ (deleteCategoryRoute st uid cid).1.cats)
    ∧ ((∀ t ∈ st.tasks, t.id = tid → ¬ t.userId = uid) →
        getTaskRoute st.tasks uid tid = Except.error TaskRouteErr.notFound
        ∧ updateTaskRoute st uid tid p = (st, some TaskRouteErr.notFound)
        ∧ deleteTaskRoute st uid tid = (st, some TaskRouteErr.notFound)
        ∧ getTaskRoute st.tasks uid tid
            = getTaskRoute (st.tasks.filter (fun t => !(t.id == tid))) uid tid)
    ∧ ((∀ c ∈ st.cats, c.id = cid → ¬ c.userId = uid) →
        getCategoryRoute st.cats uid cid = Except.error TaskRouteErr.notFound
        ∧ updateCategoryRoute st.cats uid cid q
            = (st.cats, some CatUpdateErr.notFound)
        ∧ deleteCategoryRoute st uid cid = (st, some CatDeleteErr.notFound)
        ∧ getCategoryRoute st.cats uid cid
            = getCategoryRoute (st.cats.filter (fun c => !(c.id == cid))) uid cid)
    ∧ (∀ st2, deleteCategoryRoute st uid cid = (st2, none) →
        st2.tasks = st.tasks) := by
  refine ⟨?_, ?_, ?_, ?_, ?_, ?_, ?_, ?_, ?_⟩
  · intro t h
    unfold getTaskRoute at h
    cases hfind : st.tasks.find? (fun t => t.id == tid && t.userId == uid) with
    | none => rw [hfind] at h; simp at h
    | some t0 =>
      rw [hfind] at h
      cases h
      have hpred := List.find?_some hfind
      simp only [Bool.and_eq_true, beq_iff_eq] at hpred
      exact ⟨hpred.2, List.mem_of_find?_eq_some hfind⟩
  · intro c h
    unfold getCategoryRoute at h
    cases hfind : st.cats.find? (fun c => c.id == cid && c.userId == uid) with
    | none => rw [hfind] at h; simp at h
    | some c0 =>
      rw [hfind] at h
      cases h
      have hpred := List.find?_some hfind
      simp only [Bool.and_eq_true, beq_iff_eq] at hpred
      exact ⟨hpred.2, List.mem_of_find?_eq_some hfind⟩
  · intro t ht htu
    unfold updateTaskRoute
    split
    · exact ht
    · next r hp =>
      obtain ⟨-, -, -, h4⟩ := patchFirstOwned_some uid tid p st.tasks r.1 r.2
        (by rw [hp])
      split
      · split
        · exact h4 t ht htu
        · exact ht
      · exact h4 t ht htu
  · intro t ht htu
    unfold deleteTaskRoute
    cases hrem : removeFirstOwned uid tid st.tasks with
    | none => exact ht
    | some r =>
      obtain ⟨-, -, -, h4⟩ := removeFirstOwned_some uid tid st.tasks r.1 r.2
        (by rw [hrem])
      exact h4 t ht htu
  · intro c hc hcu
    unfold updateCategoryRoute
    split
    · exact hc
    · next r hp =>
      obtain ⟨-, -, -, h4⟩ := patchFirstOwnedCat_some uid cid q st.cats r.1 r.2
        (by rw [hp])
      split
      · exact hc
      · exact h4 c hc hcu
  · intro c hc hcu
    unfold deleteCategoryRoute
    split
    · exact hc
    · split
      · exact hc
      · split
        · exact hc
        · refine (List.mem_eraseP_of_neg ?_).mpr hc
          simp only [Bool.and_eq_true, beq_iff_eq, not_and]
          intro _
          exact hcu
  · intro hforeign
    have hnone : st.tasks.find? (fun t => t.id == tid && t.userId == uid)
        = none := by
      rw [List.find?_eq_none]
      intro t ht
      simp only [Bool.and_eq_true, beq_iff_eq, not_and]
      intro hid
      exact hforeign t ht hid
    have hnone2 : (st.tasks.filter (fun t => !(t.id == tid))).find?
        (fun t => t.id == tid && t.userId == uid) = none := by
      rw [List.find?_eq_none]
      intro t ht
      have := List.of_mem_filter ht
      simp only [Bool.not_eq_true', beq_eq_false_iff_ne] at this
      simp [this]
    have hrem : removeFirstOwned uid tid st.tasks = none := by
      rw [removeFirstOwned_eq_none]
      intro t ht
      rintro ⟨hid, hu⟩
      exact hforeign t ht hid hu
    have hpat : patchFirstOwned uid tid p st.tasks = none := by
      rw [patchFirstOwned_eq_none]
      intro t ht
      rintro ⟨hid, hu⟩
      exact hforeign t ht hid hu
    refine ⟨?_, ?_, ?_, ?_⟩
    · unfold getTaskRoute
      rw [hnone]
    · unfold updateTaskRoute
      rw [hpat]
    · unfold deleteTaskRoute
      rw [hrem]
    · unfold getTaskRoute
      rw [hnone, hnone2]
  · intro hforeign
    have hnone : st.cats.find? (fun c => c.id == cid && c.userId == uid)
        = none := by
      rw [List.find?_eq_none]
      intro c hc
      simp only [Bool.and_eq_true, beq_iff_eq, not_and]
      intro hid
      exact hforeign c hc hid
    have hnone2 : (st.cats.filter (fun c => !(c.id == cid))).find?
        (fun c => c.id == cid && c.userId == uid) = none := by
      rw [List.find?_eq_none]
      intro c hc
      have := List.of_mem_filter hc
      simp only [Bool.not_eq_true', beq_eq_false_iff_ne] at this
      simp [this]
    have hpat : patchFirstOwnedCat uid cid q st.cats = none := by
      rw [patchFirstOwnedCat_eq_none]
      intro c hc
      rintro ⟨hid, hu⟩
      exact hforeign c hc hid hu
    refine ⟨?_, ?_, ?_, ?_⟩
    · unfold getCategoryRoute
      rw [hnone]
    · unfold updateCategoryRoute
      rw [hpat]
    · unfold deleteCategoryRoute
      rw [hnone]
    · unfold getCategoryRoute
      rw [hnone, hnone2]
  · intro st2 h2
    unfold deleteCategoryRoute at h2
    split at h2
    · simp at h2
    · split at h2
      · simp at h2
      · split at h2
        · simp at h2
        · next hlt =>
          rw [Prod.mk.injEq] at h2
          have hzero : refCount st.tasks cid = 0 := by omega
          rw [← h2.1]
          exact preRemoveDetach_no_refs cid st.tasks hzero

/-- Claim C2 witness: a store holding only a task of user u2; acting as u1,
the read fails exactly as on the empty store and the delete reports
NotFound and changes nothing. -/
theorem ownership_scoping_witness :
    getTaskRoute [⟨"t1", "x", "", false, none, "low", none, none, "u2", 0, 0⟩]
        "u1" "t1" = Except.error TaskRouteErr.notFound
    ∧ deleteTaskRoute
        ⟨[], [⟨"t1", "x", "", false, none, "low", none, none, "u2", 0, 0⟩]⟩
        "u1" "t1"
      = (⟨[], [⟨"t1", "x", "", false, none, "low", none, none, "u2", 0, 0⟩]⟩,
          some TaskRouteErr.notFound) := by
  have h := (ownership_scoping
    ⟨[], [⟨"t1", "x", "", false, none, "low", none, none, "u2", 0, 0⟩]⟩
    "u1" "t1" "c1" ⟨none, none, none, none, none⟩
    ⟨none, none, none, none⟩).2.2.2.2.2.2.1 (by decide)
  exact ⟨h.1, h.2.2.1⟩

/-- User document, from the userSchema of src/backend/models/User.js: the
password field stores the one-way hash, emails are stored lowercased by the
schema, and isActive defaults to true. -/
structure User where
  id : String
  email : String
  username : String
  password : String
  isActive : Bool
  lastLogin : Option Int
deriving Repr, DecidableEq

/-- Signed token payload: the user id plus issue and expiry instants. -/
structure AuthToken where
  userId : String
  issuedAt : Int
  expiresAt : Int
deriving Repr, DecidableEq

/-- Fixed token validity window in milliseconds (seven days). -/
def tokenExpiryMs : Int := 604800000

inductive AuthErr
  | invalidCredentials
deriving Repr, DecidableEq

/-- Modelled from the spec: the login route handler. The auth route file is
genuinely absent from src/ (src/SETUP.md bundles only the task and category
route files). The email lookup follows the
findByEmail static of src/backend/models/User.js (stored emails are
lowercased by the schema and the query email is lowercased before the
lookup, modelled as case-insensitive equality) and is restricted to active
users; the password check embeds the comparePassword
method (bcrypt modelled by an abstract hash function passed in); on success
the lastLogin update embeds updateLastLogin and a signed token carrying the
user id with the fixed expiry window is issued. Returns the updated user
collection, the logged-in user and the token. -/
def authenticate (hashFn : String → String) (users : List User)
    (email pw : String) (now : Int) :
    Except AuthErr (List User × User × AuthToken) :=
  match users.find? (fun u => nameEqCI u.email email && u.isActive) with
  | none => Except.error AuthErr.invalidCredentials
  | some u =>
    if hashFn pw == u.password then
      Except.ok
        (users.map (fun v =>
            if v.id == u.id then { v with lastLogin := some now } else v),
          { u with lastLogin := some now },
          ⟨u.id, now, now + tokenExpiryMs⟩)
    else Except.error AuthErr.invalidCredentials

/-- Claim C6: authenticate fails with InvalidCredentials when no active user
matches the email, and also when the (unique) user with that email is active
but the password hash does not match; on success the logged-in user is an
active stored user with matching email and hash, returned with lastLogin set
to now and a token carrying exactly that user's id with the fixed expiry
window measured from now. -/
theorem authenticate_spec (hashFn : String → String) (users : List User)
    (email pw : String) (now : Int) :
    ((∀ u ∈ users, nameEqCI u.email email = true → u.isActive = false) →
        authenticate hashFn users email pw now
          = Except.error AuthErr.invalidCredentials)
    ∧ (∀ u ∈ users, nameEqCI u.email email = true → u.isActive = true →
        ¬ hashFn pw = u.password →
        (∀ v ∈ users, nameEqCI v.email email = true → v = u) →
        authenticate hashFn users email pw now
          = Except.error AuthErr.invalidCredentials)
    ∧ (∀ res, authenticate hashFn users email pw now = Except.ok res →
        ∃ u ∈ users, nameEqCI u.email email = true ∧ u.isActive = true
          ∧ hashFn pw = u.password
          ∧ res.2.1 = { u with lastLogin := some now }
          ∧ res.2.2 = (⟨u.id, now, now + tokenExpiryMs⟩ : AuthToken)
          ∧ res.2.2.expiresAt - res.2.2.issuedAt = tokenExpiryMs) := by
  refine ⟨?_, ?_, ?_⟩
  · intro hinactive
    have hnone : users.find? (fun u => nameEqCI u.email email && u.isActive)
        = none := by
      rw [List.find?_eq_none]
      intro u hu
      simp only [Bool.and_eq_true, not_and]
      intro he
      simp [hinactive u hu he]
    unfold authenticate
    rw [hnone]
  · intro u hu he ha hmiss huniq
    unfold authenticate
    split
    · rfl
    · next w hfind =>
      have hpred := List.find?_some hfind
      simp only [Bool.and_eq_true] at hpred
      have hw : w = u := huniq w (List.mem_of_find?_eq_some hfind) hpred.1
      subst hw
      rw [if_neg (by simpa using hmiss)]
  · intro res hres
    unfold authenticate at hres
    split at hres
    · exact absurd hres (by simp)
    · next u hfind =>
      split at hres
      · next hok =>
        have hpred := List.find?_some hfind
        simp only [Bool.and_eq_true] at hpred
        rw [Except.ok.injEq] at hres
        subst hres
        exact ⟨u, List.mem_of_find?_eq_some hfind, hpred.1, hpred.2,
          by simpa using hok, rfl, rfl, by simp⟩
      · exact absurd hres (by simp)

/-- Claim C6 witness: with the identity hash, a wrong password for the one
active stored user is rejected. -/
theorem authenticate_spec_witness :
    authenticate (fun s => s)
        [⟨"u1", "demo@example.com", "demo", "secret", true, none⟩]
        "demo@example.com" "wrong" 1000
      = Except.error AuthErr.invalidCredentials := by
  have h := (authenticate_spec (fun s => s)
    [⟨"u1", "demo@example.com", "demo", "secret", true, none⟩]
    "demo@example.com" "wrong" 1000).2.1
  exact h ⟨"u1", "demo@example.com", "demo", "secret", true, none⟩
    (List.mem_singleton_self _) (by decide) rfl (by decide)
    (fun v hv _ => by simpa using hv)

/-- Claim C1: the denormalized counter does NOT stay equal to the live
reference count under the task routes. Concretely: a category of user u1
starts with taskCount 0 and no references; creating a task that references
it brings the stored counter and the live count to 1; a title-only PUT of
that task — whose body omits categoryId, so the task keeps its reference —
leaves one live reference but decrements the stored counter to 0, because
the handler compares the stored ObjectId with the body string using strict
inequality, which never holds between the two types; a second title-only
PUT drives the unclamped counter to -1, below zero. -/
theorem taskCount_violation_on_put :
    createTaskRoute
        ⟨[⟨"c1", "Work", "#3b82f6", "tag", "", "u1", false, true, 0, 1⟩], []⟩
        ⟨"t1", "a", "", false, none, "medium", some "c1", none, "u1", 0, 0⟩
      = (⟨[⟨"c1", "Work", "#3b82f6", "tag", "", "u1", false, true, 1, 1⟩],
          [⟨"t1", "a", "", false, none, "medium", some "c1", none, "u1", 0, 0⟩]⟩,
          none)
    ∧ updateTaskRoute
        ⟨[⟨"c1", "Work", "#3b82f6", "tag", "", "u1", false, true, 1, 1⟩],
          [⟨"t1", "a", "", false, none, "medium", some "c1", none, "u1", 0, 0⟩]⟩
        "u1" "t1" ⟨some "b", none, none, none, none⟩
      = (⟨[⟨"c1", "Work", "#3b82f6", "tag", "", "u1", false, true, 0, 1⟩],
          [⟨"t1", "b", "", false, none, "medium", some "c1", none, "u1", 0, 0⟩]⟩,
          none)
    ∧ refCount
        [⟨"t1", "b", "", false, none, "medium", some "c1", none, "u1", 0, 0⟩]
        "c1" = 1
    ∧ updateTaskRoute
        ⟨[⟨"c1", "Work", "#3b82f6", "tag", "", "u1", false, true, 0, 1⟩],
          [⟨"t1", "b", "", false, none, "medium", some "c1", none, "u1", 0, 0⟩]⟩
        "u1" "t1" ⟨some "c", none, none, none, none⟩
      = (⟨[⟨"c1", "Work", "#3b82f6", "tag", "", "u1", false, true, -1, 1⟩],
          [⟨"t1", "c", "", false, none, "medium", some "c1", none, "u1", 0, 0⟩]⟩,
          none) := by
  decide

end Todo
